import Mathlib

/-!
Verification of the terraform-provider-aws resource CRUD logic
(WAFv2 Web ACL, Transfer certificate, DeviceFarm upload, EC2 VPC finders).

Shallow embedding conventions:
* Every AWS API call made by the provider is modelled by an oracle-supplied
  response of type `Except AwsErr α`; the provider code under verification is
  translated into pure Lean functions of those responses.
* Go `*string` fields are `Option String`; `aws.ToString` is `awsToString`.
* The `tfresource.RetryWhen*` wrappers (library code of the repository, not in
  the sources under verification) are modelled by `retryWhenTransient`, which
  consumes a list of successive attempt results while the error is of the
  transient exception class, returning the final result (the last attempt is
  the one at timeout).  Each wrapper invocation is one "mutation phase"; the
  flows below record the phases (with the lock token each used) so that
  retry-counting properties are about the trace of mutation attempts.
* `diag.Diagnostics` results are modelled by `Option Diag`: `none` is success
  (no diagnostics), `some d` is the single error diagnostic the callback
  returns; `Diag` constructors carry the underlying error verbatim.
-/

deriving instance DecidableEq for Except

namespace TfAws

/-- AWS API errors as classified by the provider code: the specific exception
types / error codes the source files test for, plus `otherErr` for any other
API error (identified by its code string). -/
inductive AwsErr where
  | wafOptimisticLockException
  | wafNonexistentItemException
  | wafUnavailableEntityException
  | wafAssociatedItemException
  | transferResourceNotFoundException
  | devicefarmNotFoundException
  | invalidVPCIDNotFound
  | otherErr (code : String)
deriving DecidableEq, Repr

/-- The spec's "not-found" error class: errors the cited callbacks treat as
"the remote resource does not exist". -/
def AwsErr.isNotFoundClass : AwsErr → Bool
  | .wafNonexistentItemException => true
  | .transferResourceNotFoundException => true
  | .devicefarmNotFoundException => true
  | .invalidVPCIDNotFound => true
  | _ => false

/-- The spec's "conflict" error class (optimistic-lock rejection). -/
def AwsErr.isConflictClass : AwsErr → Bool
  | .wafOptimisticLockException => true
  | _ => false

/-- Errors returned by finder helpers to the CRUD callbacks:
`retry.NotFoundError` (possibly wrapping the API error), the
`tfresource.EmptyResultError` raised on a nil/empty API result, or a raw AWS
API error propagated unchanged. -/
inductive ProvErr where
  | notFoundError (lastError : Option AwsErr)
  | emptyResultError
  | apiError (e : AwsErr)
deriving DecidableEq, Repr

/-- Modelled from the spec: `tfresource.NotFound` (repository code not under
the sources here) classifies an error as not-found; per the spec's finder
helpers "with not-found semantics", both `retry.NotFoundError` and the
empty-result error (raised when a lookup returns a nil/empty result, which the
spec and claims treat as not-found) are in that class, and raw API errors are
not. -/
def ProvErr.isTfNotFound : ProvErr → Bool
  | .notFoundError _ => true
  | .emptyResultError => true
  | .apiError _ => false

/-- `aws.ToString`: dereference a `*string`, yielding "" for nil. -/
def awsToString : Option String → String
  | some s => s
  | none => ""

/-- A WAFv2 rule; only the fields the verified code inspects are modelled
(`Name`, which drives the Shield-rule filtering, and `Priority` so that
distinct rules with equal names exist in the model). -/
structure Rule where
  name : Option String
  priority : Int := 0
deriving DecidableEq, Repr

/-- `awstypes.WebACL`: the fields the verified code uses. -/
structure WebACL where
  rules : List Rule
deriving DecidableEq, Repr

/-- `wafv2.GetWebACLOutput`: a possibly-nil `WebACL` plus the lock token. -/
structure GetWebACLOutput where
  webACL : Option WebACL
  lockToken : Option String
deriving DecidableEq, Repr

/-- The rules of the web ACL in a `GetWebACLOutput` (`output.WebACL.Rules`;
the successful finder guarantees `WebACL` is non-nil). -/
def GetWebACLOutput.rulesOf (o : GetWebACLOutput) : List Rule :=
  (o.webACL.map WebACL.rules).getD []

/-- Response of one `conn.GetWebACL` call: an API error, or a possibly-nil
(`none`) output pointer. -/
abbrev GetResp := Except AwsErr (Option GetWebACLOutput)

/-! ### The Shield mitigation rule-name pattern

`findShieldRule` matches rule names against the Go regular expression
`^ShieldMitigationRuleGroup_\d{12}_[0-9A-Fa-f]{8}-[0-9A-Fa-f]{4}-[0-9A-Fa-f]{4}-[0-9A-Fa-f]{4}-[0-9A-Fa-f]{12}_.*`.
Since the pattern is anchored at the start and ends in `.*`, `MatchString`
succeeds exactly when the name has the prefix
`ShieldMitigationRuleGroup_` + 12 digits + `_` + 8-4-4-4-12 hex + `_`. -/

/-- ASCII digit, as matched by `\d` in Go regexp. -/
def isAsciiDigit (c : Char) : Bool := '0' ≤ c && c ≤ '9'

/-- Hex digit, as matched by `[0-9A-Fa-f]`. -/
def isHexDigitChar (c : Char) : Bool :=
  isAsciiDigit c || ('A' ≤ c && c ≤ 'F') || ('a' ≤ c && c ≤ 'f')

/-- Consume an exact literal character sequence, returning the rest. -/
def dropLit : List Char → List Char → Option (List Char)
  | [], cs => some cs
  | l :: ls, c :: cs => if c = l then dropLit ls cs else none
  | _ :: _, [] => none

/-- Consume exactly `n` characters satisfying `p`, returning the rest. -/
def dropCount (p : Char → Bool) : Nat → List Char → Option (List Char)
  | 0, cs => some cs
  | n + 1, c :: cs => if p c then dropCount p n cs else none
  | _ + 1, [] => none

/-- Whether a rule name matches the Shield mitigation rule-group pattern. -/
def matchShieldName (s : String) : Bool :=
  (do
    let cs ← dropLit "ShieldMitigationRuleGroup_".data s.data
    let cs ← dropCount isAsciiDigit 12 cs
    let cs ← dropLit ['_'] cs
    let cs ← dropCount isHexDigitChar 8 cs
    let cs ← dropLit ['-'] cs
    let cs ← dropCount isHexDigitChar 4 cs
    let cs ← dropLit ['-'] cs
    let cs ← dropCount isHexDigitChar 4 cs
    let cs ← dropLit ['-'] cs
    let cs ← dropCount isHexDigitChar 4 cs
    let cs ← dropLit ['-'] cs
    let cs ← dropCount isHexDigitChar 12 cs
    let cs ← dropLit ['_'] cs
    some cs).isSome

/-- `findShieldRule`: the rules whose name matches the Shield pattern. -/
def findShieldRule (rules : List Rule) : List Rule :=
  rules.filter (fun r => matchShieldName (awsToString r.name))

/-- `filterWebACLRules rules configRules`: remove from the remote `rules`
those named like the first found Shield rule, unless a configured rule has
that name; if no rule matches the Shield pattern, return `rules` unchanged. -/
def filterWebACLRules (rules configRules : List Rule) : List Rule :=
  match findShieldRule rules with
  | [] => rules
  | s0 :: _ =>
    rules.filter (fun r =>
      !(awsToString r.name == awsToString s0.name
        && !(configRules.any (fun cr => awsToString cr.name == awsToString r.name))))

/-- `findWebACLByThreePartKey` applied to the `GetWebACL` response:
nonexistent-item becomes `retry.NotFoundError`, other API errors propagate,
a nil output or nil `WebACL` becomes the empty-result error, and otherwise the
non-nil output is returned. -/
def findWebACLByThreePartKey (resp : GetResp) : Except ProvErr GetWebACLOutput :=
  match resp with
  | .error .wafNonexistentItemException =>
      .error (.notFoundError (some .wafNonexistentItemException))
  | .error e => .error (.apiError e)
  | .ok none => .error .emptyResultError
  | .ok (some output) =>
      match output.webACL with
      | none => .error .emptyResultError
      | some _ => .ok output

/-- Whether a finder result is a not-found-class error. -/
def resultNotFound {α : Type} : Except ProvErr α → Bool
  | .error e => e.isTfNotFound
  | .ok _ => false

/-! ### The tfresource retry wrappers and diagnostics -/

/-- Modelled from the spec: `tfresource.RetryWhenIsA` /
`RetryWhenIsOneOf2` (repository library code not under the sources here)
re-invoke the operation while its error is of the given transient exception
class(es), up to a timeout, and return the operation's final result.  The
model consumes the list of successive attempt results; the last listed
attempt is the one standing at timeout. -/
def retryWhenTransient {α : Type} (transient : AwsErr → Bool) :
    Except AwsErr α → List (Except AwsErr α) → Except AwsErr α
  | .ok v, _ => .ok v
  | .error e, [] => .error e
  | .error e, r :: rest =>
      if transient e then retryWhenTransient transient r rest else .error e

/-- The transient class of `RetryWhenIsA[*WAFUnavailableEntityException]`. -/
def isUnavailableEntity : AwsErr → Bool
  | .wafUnavailableEntityException => true
  | _ => false

/-- The transient class of
`RetryWhenIsOneOf2[*WAFAssociatedItemException, *WAFUnavailableEntityException]`. -/
def isAssociatedOrUnavailable : AwsErr → Bool
  | .wafAssociatedItemException => true
  | .wafUnavailableEntityException => true
  | _ => false

/-- The error diagnostics the modelled callbacks can return; each constructor
is one `diag.Errorf` / `sdkdiag.AppendErrorf` site and carries the underlying
error verbatim. -/
inductive Diag where
  | creatingWebACL (e : AwsErr)
  | readingWebACL (e : ProvErr)
  | updatingWebACL (e : AwsErr)
  | updateConflict (e : AwsErr)
  | refreshingWebACL (e : ProvErr)
  | deletingWebACL (e : AwsErr)
  | deleteConflict (e : AwsErr)
  | importingCertificate (e : AwsErr)
  | readingCertificate (e : ProvErr)
  | deletingCertificate (e : AwsErr)
  | creatingUpload (e : AwsErr)
  | readingUpload (e : ProvErr)
  | decodingProjectARN (msg : String)
  | deletingUpload (e : AwsErr)
deriving DecidableEq, Repr

/-- One invocation of a retry-wrapped mutation (`UpdateWebACL` or
`DeleteWebACL`): the lock token the request carried and the wrapper's final
result. -/
structure MutationPhase where
  lockToken : String
  result : Except AwsErr Unit
deriving DecidableEq, Repr

/-! ### WAFv2 Web ACL create -/

/-- `wafv2.CreateWebACLOutput`: only `Summary.Id` is used. -/
structure CreateWebACLOutput where
  summaryId : String
deriving DecidableEq, Repr

/-- How a create callback ends: an immediate return with diagnostics, or
falling through to the resource read with the freshly set ID. -/
inductive CreateResult where
  | done (diags : Option Diag)
  | toRead (newId : String)
deriving DecidableEq, Repr

/-- `resourceWebACLCreate` (the API-facing part, up to the trailing read):
`CreateWebACL` under `RetryWhenIsA[*WAFUnavailableEntityException]`; a final
error is surfaced verbatim, otherwise the ID is set from `Summary.Id`. -/
def resourceWebACLCreate (att1 : Except AwsErr CreateWebACLOutput)
    (attRest : List (Except AwsErr CreateWebACLOutput)) : CreateResult :=
  match retryWhenTransient isUnavailableEntity att1 attRest with
  | .error e => .done (some (.creatingWebACL e))
  | .ok output => .toRead output.summaryId

/-- `resourceCertificateCreate` (the API-facing part): a plain
`ImportCertificate` call; any error is surfaced verbatim, otherwise the ID is
set from `CertificateId`. -/
def resourceCertificateCreate (resp : Except AwsErr String) : CreateResult :=
  match resp with
  | .error e => .done (some (.importingCertificate e))
  | .ok certificateId => .toRead certificateId

/-- `resourceUploadCreate` (the API-facing part): a plain `CreateUpload`
call; any error is surfaced verbatim, otherwise the ID is set from the
upload's ARN. -/
def resourceUploadCreate (resp : Except AwsErr String) : CreateResult :=
  match resp with
  | .error e => .done (some (.creatingUpload e))
  | .ok uploadArn => .toRead uploadArn

/-! ### WAFv2 Web ACL update -/

/-- Oracle and inputs for one run of `resourceWebACLUpdate`:
the relevant resource data plus the responses the AWS API would return to
each call the callback can make, in program order. -/
structure WebACLUpdateEnv where
  /-- `d.HasChangesExcept(tags, tags_all)`. -/
  hasChanges : Bool := true
  /-- `expandWebACLRules(d.Get("rule"))`: the configured rules. -/
  cfgRules : List Rule
  /-- `d.Get("lock_token")`: the last-known lock token. -/
  lockToken : String
  /-- Response to the Shield-lookup `GetWebACL` (made only when the
  configured rules contain no Shield rule). -/
  shieldGet : GetResp
  /-- First attempt of the initial `UpdateWebACL` wrapper. -/
  upd1 : Except AwsErr Unit
  /-- Further attempts of the initial `UpdateWebACL` wrapper. -/
  upd1Rest : List (Except AwsErr Unit)
  /-- Response to the refresh `GetWebACL` after an optimistic-lock conflict. -/
  refreshGet : GetResp
  /-- First attempt of the conflict-retried `UpdateWebACL` wrapper. -/
  upd2 : Except AwsErr Unit
  /-- Further attempts of the conflict-retried `UpdateWebACL` wrapper. -/
  upd2Rest : List (Except AwsErr Unit)
deriving Repr

/-- How `resourceWebACLUpdate` ends: an immediate return (with or without
diagnostics), or falling through to `resourceWebACLRead`. -/
inductive UpdateResult where
  | done (diags : Option Diag)
  | toRead
deriving DecidableEq, Repr

/-- Observable outcome of `resourceWebACLUpdate`: how it ended, the
`UpdateWebACL` mutation phases performed in order, and the `Rules` field of
the `UpdateWebACLInput` (when the input was built). -/
structure UpdateOutcome where
  result : UpdateResult
  phases : List MutationPhase
  sentRules : Option (List Rule)
deriving DecidableEq, Repr

/-- The `Rules` of the `UpdateWebACLInput`: the configured rules, with the
remote web ACL's Shield rules appended when the configuration has none
(lines 282-291); fails if that Shield lookup fails. -/
def webACLUpdateSentRules (cfgRules : List Rule) (shieldGet : GetResp) :
    Except ProvErr (List Rule) :=
  if (findShieldRule cfgRules).isEmpty then
    match findWebACLByThreePartKey shieldGet with
    | .error e => .error e
    | .ok output => .ok (cfgRules ++ findShieldRule output.rulesOf)
  else
    .ok cfgRules

/-- `retryResourceWebACLUpdateOptmisticLockFailure`: refresh the web ACL; on
refresh failure surface it; if the fresh lock token differs from the held
one, re-run the `UpdateWebACL` wrapper once with the fresh token, surfacing a
conflict error only if that retried mutation also hits an optimistic-lock
conflict; otherwise (including an unchanged token) return success.
Returns the diagnostics together with the mutation phases it performed. -/
def retryResourceWebACLUpdateOptmisticLockFailure (lockToken : String)
    (refreshGet : GetResp) (upd2 : Except AwsErr Unit)
    (upd2Rest : List (Except AwsErr Unit)) : Option Diag × List MutationPhase :=
  match findWebACLByThreePartKey refreshGet with
  | .error e => (some (.refreshingWebACL e), [])
  | .ok webAcl =>
    if awsToString webAcl.lockToken ≠ lockToken then
      let r := retryWhenTransient isAssociatedOrUnavailable upd2 upd2Rest
      if r = .error .wafOptimisticLockException then
        (some (.updateConflict .wafOptimisticLockException),
          [⟨awsToString webAcl.lockToken, r⟩])
      else
        (none, [⟨awsToString webAcl.lockToken, r⟩])
    else
      (none, [])

/-- `resourceWebACLUpdate`: when non-tag attributes changed, build the input
(appending remote Shield rules if the configuration has none) and run the
`UpdateWebACL` wrapper with the last-known lock token; an optimistic-lock
conflict is handed to the retry helper, any other error is surfaced verbatim,
and success falls through to the read. -/
def resourceWebACLUpdate (env : WebACLUpdateEnv) : UpdateOutcome :=
  if env.hasChanges then
    match webACLUpdateSentRules env.cfgRules env.shieldGet with
    | .error e => ⟨.done (some (.readingWebACL e)), [], none⟩
    | .ok rules =>
      let r1 := retryWhenTransient isUnavailableEntity env.upd1 env.upd1Rest
      let phase1 : MutationPhase := ⟨env.lockToken, r1⟩
      if r1 = .error .wafOptimisticLockException then
        let dp := retryResourceWebACLUpdateOptmisticLockFailure env.lockToken
          env.refreshGet env.upd2 env.upd2Rest
        ⟨.done dp.1, phase1 :: dp.2, some rules⟩
      else
        match r1 with
        | .error e => ⟨.done (some (.updatingWebACL e)), [phase1], some rules⟩
        | .ok _ => ⟨.toRead, [phase1], some rules⟩
  else
    ⟨.toRead, [], none⟩

/-! ### WAFv2 Web ACL delete -/

/-- Oracle and inputs for one run of `resourceWebACLDelete`. -/
structure WebACLDeleteEnv where
  /-- `d.Get("lock_token")`: the last-known lock token. -/
  lockToken : String
  /-- First attempt of the initial `DeleteWebACL` wrapper. -/
  del1 : Except AwsErr Unit
  /-- Further attempts of the initial `DeleteWebACL` wrapper. -/
  del1Rest : List (Except AwsErr Unit)
  /-- Response to the refresh `GetWebACL` after an optimistic-lock conflict. -/
  refreshGet : GetResp
  /-- First attempt of the conflict-retried `DeleteWebACL` wrapper. -/
  del2 : Except AwsErr Unit
  /-- Further attempts of the conflict-retried `DeleteWebACL` wrapper. -/
  del2Rest : List (Except AwsErr Unit)
deriving Repr

/-- Observable outcome of `resourceWebACLDelete`. -/
structure DeleteOutcome where
  diags : Option Diag
  phases : List MutationPhase
deriving DecidableEq, Repr

/-- `retryResourceWebACLDeleteOptmisticLockFailure`: refresh the web ACL; on
refresh failure surface it; if the fresh lock token differs from the held
one, re-run the `DeleteWebACL` wrapper once with the fresh token, surfacing a
conflict error only if that retried mutation also hits an optimistic-lock
conflict; otherwise (including an unchanged token) return success. -/
def retryResourceWebACLDeleteOptmisticLockFailure (lockToken : String)
    (refreshGet : GetResp) (del2 : Except AwsErr Unit)
    (del2Rest : List (Except AwsErr Unit)) : Option Diag × List MutationPhase :=
  match findWebACLByThreePartKey refreshGet with
  | .error e => (some (.refreshingWebACL e), [])
  | .ok webAcl =>
    if awsToString webAcl.lockToken ≠ lockToken then
      let r := retryWhenTransient isAssociatedOrUnavailable del2 del2Rest
      if r = .error .wafOptimisticLockException then
        (some (.deleteConflict .wafOptimisticLockException),
          [⟨awsToString webAcl.lockToken, r⟩])
      else
        (none, [⟨awsToString webAcl.lockToken, r⟩])
    else
      (none, [])

/-- `resourceWebACLDelete`: run the `DeleteWebACL` wrapper with the
last-known lock token; an optimistic-lock conflict is handed to the retry
helper, a nonexistent-item error is success, any other error is surfaced
verbatim. -/
def resourceWebACLDelete (env : WebACLDeleteEnv) : DeleteOutcome :=
  let r1 := retryWhenTransient isAssociatedOrUnavailable env.del1 env.del1Rest
  let phase1 : MutationPhase := ⟨env.lockToken, r1⟩
  if r1 = .error .wafOptimisticLockException then
    let dp := retryResourceWebACLDeleteOptmisticLockFailure env.lockToken
      env.refreshGet env.del2 env.del2Rest
    ⟨dp.1, phase1 :: dp.2⟩
  else if r1 = .error .wafNonexistentItemException then
    ⟨none, [phase1]⟩
  else
    match r1 with
    | .error e => ⟨some (.deletingWebACL e), [phase1]⟩
    | .ok _ => ⟨none, [phase1]⟩

/-! ### Read callbacks -/

/-- Observable outcome of a read callback: the resource ID after the read
(`""` means the resource was removed from state) and the diagnostics. -/
structure ReadOutcome where
  id : String
  diags : Option Diag
deriving DecidableEq, Repr

/-- Outcome of `resourceWebACLRead`: additionally the rule set and lock token
written to state on success. -/
structure WebACLReadOutcome where
  id : String
  diags : Option Diag
  storedRules : Option (List Rule)
  storedLockToken : Option (Option String)
deriving DecidableEq, Repr

/-- `resourceWebACLRead`: look the web ACL up; a not-found on a resource that
is not newly created clears the ID and succeeds, any other error (including a
not-found on a new resource) is surfaced; on success the state is written,
with the remote rules passed through `filterWebACLRules` against the
configured rules. -/
def resourceWebACLRead (isNew : Bool) (id : String) (cfgRules : List Rule)
    (getResp : GetResp) : WebACLReadOutcome :=
  match findWebACLByThreePartKey getResp with
  | .error e =>
    if !isNew && e.isTfNotFound then
      ⟨"", none, none, none⟩
    else
      ⟨id, some (.readingWebACL e), none, none⟩
  | .ok output =>
      ⟨id, none, some (filterWebACLRules output.rulesOf cfgRules),
        some output.lockToken⟩

/-- `resourceCertificateRead`: `FindCertificateByID` result handling; a
not-found on a non-new resource clears the ID and succeeds, any other error
is surfaced, success writes the state. -/
def resourceCertificateRead (isNew : Bool) (id : String)
    (findResp : Except ProvErr Unit) : ReadOutcome :=
  match findResp with
  | .error e =>
    if !isNew && e.isTfNotFound then
      ⟨"", none⟩
    else
      ⟨id, some (.readingCertificate e)⟩
  | .ok _ => ⟨id, none⟩

/-- `resourceUploadRead`: `FindUploadByARN` result handling as for the
certificate read; on success `decodeProjectARN` may still fail, which is
surfaced. -/
def resourceUploadRead (isNew : Bool) (id : String)
    (findResp : Except ProvErr Unit) (decodeResp : Except String String) :
    ReadOutcome :=
  match findResp with
  | .error e =>
    if !isNew && e.isTfNotFound then
      ⟨"", none⟩
    else
      ⟨id, some (.readingUpload e)⟩
  | .ok _ =>
    match decodeResp with
    | .error msg => ⟨id, some (.decodingProjectARN msg)⟩
    | .ok _ => ⟨id, none⟩

/-! ### Delete callbacks of the simple resources -/

/-- `resourceCertificateDelete`: `DeleteCertificate`; a
resource-not-found error code is success, any other error is surfaced. -/
def resourceCertificateDelete (resp : Except AwsErr Unit) : Option Diag :=
  match resp with
  | .error .transferResourceNotFoundException => none
  | .error e => some (.deletingCertificate e)
  | .ok _ => none

/-- `resourceUploadDelete`: `DeleteUpload`; a not-found error code is
success, any other error is surfaced. -/
def resourceUploadDelete (resp : Except AwsErr Unit) : Option Diag :=
  match resp with
  | .error .devicefarmNotFoundException => none
  | .error e => some (.deletingUpload e)
  | .ok _ => none

/-! ### WAFv2 Web ACL importer -/

/-- Go `strings.Split` with a single-character separator, on character
lists: split around every occurrence of `sep`, keeping empty parts (the
empty input gives one empty part). -/
def goSplitChars (sep : Char) : List Char → List (List Char)
  | [] => [[]]
  | c :: cs =>
    match goSplitChars sep cs with
    | [] => [[c]]
    | h :: t => if c = sep then [] :: h :: t else (c :: h) :: t

/-- Go `strings.Split` with a single-character separator. -/
def goSplit (sep : Char) (s : String) : List String :=
  (goSplitChars sep s.data).map (fun cs => ⟨cs⟩)

/-- The importer's check on `strings.Split(d.Id(), "/")`: reject unless there
are exactly three parts, all non-empty; accept with (ID, name, scope). -/
def importParts (idParts : List String) : Option (String × String × String) :=
  if idParts.length ≠ 3 ∨ idParts.getD 0 "" = "" ∨ idParts.getD 1 "" = ""
      ∨ idParts.getD 2 "" = "" then
    none
  else
    some (idParts.getD 0 "", idParts.getD 1 "", idParts.getD 2 "")

/-- The Web ACL importer `StateContext`: split the import ID on `/` and
apply the three-part check; `some (id, name, scope)` models the import
succeeding and setting the resource ID and the name and scope attributes,
`none` the unexpected-format error. -/
def resourceWebACLImportState (importId : String) :
    Option (String × String × String) :=
  importParts (goSplit '/' importId)

/-! ### EC2 VPC pagination finder -/

/-- An EC2 VPC (identifying payload only). -/
structure Vpc where
  vpcId : String
deriving DecidableEq, Repr

/-- `findVPCsV2` applied to the successive page results of the
`DescribeVpcs` paginator: concatenate the `Vpcs` of every page in order; a
page failing with `InvalidVpcID.NotFound` yields a not-found error, any other
page error propagates unchanged. -/
def findVPCsV2 : List (Except AwsErr (List Vpc)) → Except ProvErr (List Vpc)
  | [] => .ok []
  | .error .invalidVPCIDNotFound :: _ =>
      .error (.notFoundError (some .invalidVPCIDNotFound))
  | .error e :: _ => .error (.apiError e)
  | .ok vpcs :: rest =>
    match findVPCsV2 rest with
    | .error e => .error e
    | .ok acc => .ok (vpcs ++ acc)

/-! ## Theorems -/

/-- The delete conflict-retry helper performs at most one mutation phase. -/
theorem retryDeleteHelper_phases_le_one (lockToken : String)
    (refreshGet : GetResp) (del2 : Except AwsErr Unit)
    (del2Rest : List (Except AwsErr Unit)) :
    (retryResourceWebACLDeleteOptmisticLockFailure lockToken refreshGet del2
      del2Rest).2.length ≤ 1 := by
  unfold retryResourceWebACLDeleteOptmisticLockFailure
  rcases findWebACLByThreePartKey refreshGet with e | og
  · simp
  · dsimp only
    by_cases hne : awsToString og.lockToken ≠ lockToken
    · rw [if_pos hne]
      split <;> simp
    · rw [if_neg hne]
      simp

/-- Claim C6: `findWebACLByThreePartKey` returns a not-found error exactly
when `GetWebACL` fails with a nonexistent-item error or returns a nil/empty
result; any other API error propagates unchanged; otherwise the non-nil
output is returned. -/
theorem c6_findWebACL_notFound_semantics :
    ∀ resp : GetResp,
      (resultNotFound (findWebACLByThreePartKey resp) = true ↔
        (resp = .error .wafNonexistentItemException ∨ resp = .ok none ∨
          ∃ output, resp = .ok (some output) ∧ output.webACL = none))
      ∧ (∀ e : AwsErr, e ≠ .wafNonexistentItemException →
          resp = .error e →
          findWebACLByThreePartKey resp = .error (.apiError e))
      ∧ (∀ output : GetWebACLOutput, resp = .ok (some output) →
          output.webACL ≠ none → findWebACLByThreePartKey resp = .ok output) := by
  intro resp
  rcases resp with e | o
  · cases e <;>
      simp [findWebACLByThreePartKey, resultNotFound, ProvErr.isTfNotFound] <;>
      exact fun e h h2 => h h2.symm
  · rcases o with _ | output
    · simp [findWebACLByThreePartKey, resultNotFound, ProvErr.isTfNotFound]
    · rcases houtput : output.webACL with _ | w <;>
        simp [findWebACLByThreePartKey, houtput, resultNotFound,
          ProvErr.isTfNotFound]

/-- Witness for C6 at concrete inputs: a nonexistent-item error is classified
not-found, and a throttling error is propagated unchanged. -/
theorem c6_witness :
    resultNotFound
        (findWebACLByThreePartKey (.error .wafNonexistentItemException)) = true
    ∧ findWebACLByThreePartKey (.error (.otherErr "Throttling")) =
        .error (.apiError (.otherErr "Throttling")) :=
  ⟨(c6_findWebACL_notFound_semantics
      (.error .wafNonexistentItemException)).1.mpr (Or.inl rfl),
    (c6_findWebACL_notFound_semantics
      (.error (.otherErr "Throttling"))).2.1 _ (by decide) rfl⟩

/-- Claim C7: `findVPCsV2` returns the concatenation, in page order, of the
VPC lists of all pages when every page succeeds; the first failing page
yields a not-found error if it failed with `InvalidVpcID.NotFound` and
propagates its error unchanged otherwise. -/
theorem c7_findVPCsV2_pages :
    (∀ pages : List (List Vpc),
        findVPCsV2 (pages.map Except.ok) = .ok pages.flatten)
    ∧ (∀ (pages : List (List Vpc)) (e : AwsErr)
          (rest : List (Except AwsErr (List Vpc))),
        findVPCsV2 (pages.map Except.ok ++ .error e :: rest) =
          if e = .invalidVPCIDNotFound then
            .error (.notFoundError (some .invalidVPCIDNotFound))
          else
            .error (.apiError e)) := by
  constructor
  · intro pages
    induction pages with
    | nil => rfl
    | cons p ps ih => simp [findVPCsV2, ih]
  · intro pages e rest
    induction pages with
    | nil => cases e <;> simp [findVPCsV2]
    | cons p ps ih =>
      by_cases he : e = .invalidVPCIDNotFound <;>
        simp [findVPCsV2, ih, he] at ih ⊢ <;> simp [ih]

/-- Witness for C7 at concrete pages: two successful pages concatenate in
page order. -/
theorem c7_witness :
    findVPCsV2 [.ok [⟨"vpc-1"⟩], .ok [⟨"vpc-2"⟩, ⟨"vpc-3"⟩]] =
      .ok [⟨"vpc-1"⟩, ⟨"vpc-2"⟩, ⟨"vpc-3"⟩] := by
  have h := c7_findVPCsV2_pages.1 [[⟨"vpc-1"⟩], [⟨"vpc-2"⟩, ⟨"vpc-3"⟩]]
  simpa using h

/-- Claim C10: the Web ACL importer accepts an import ID exactly when it
splits on `/` into three non-empty parts, yielding (ID, name, scope) from the
respective parts, and rejects every other ID. -/
theorem c10_import_characterization :
    ∀ s a b c : String,
      resourceWebACLImportState s = some (a, b, c) ↔
        (goSplit '/' s = [a, b, c] ∧ a ≠ "" ∧ b ≠ "" ∧ c ≠ "") := by
  intro s a b c
  unfold resourceWebACLImportState
  generalize goSplit '/' s = l
  match l with
  | [] => simp [importParts]
  | [x] => simp [importParts]
  | [x, y] => simp [importParts]
  | [x, y, z] =>
    by_cases hx : x = "" <;> by_cases hy : y = "" <;> by_cases hz : z = "" <;>
      simp [importParts, hx, hy, hz] <;> aesop
  | x :: y :: z :: w :: ts => simp [importParts]

/-- Witness for C10 at concrete import IDs: a well-formed three-part ID is
accepted with its parts. -/
theorem c10_witness :
    resourceWebACLImportState "abcd1234/my-acl/REGIONAL" =
      some ("abcd1234", "my-acl", "REGIONAL") :=
  (c10_import_characterization "abcd1234/my-acl/REGIONAL" "abcd1234" "my-acl"
    "REGIONAL").mpr ⟨by decide, by decide, by decide, by decide⟩

/-- Claim C4: every delete callback treats a not-found report from the remote
API as success with no diagnostics. -/
theorem c4_delete_notFound_idempotent :
    (∀ env : WebACLDeleteEnv,
        retryWhenTransient isAssociatedOrUnavailable env.del1 env.del1Rest =
          .error .wafNonexistentItemException →
        (resourceWebACLDelete env).diags = none)
    ∧ resourceCertificateDelete (.error .transferResourceNotFoundException) =
        none
    ∧ resourceUploadDelete (.error .devicefarmNotFoundException) = none := by
  refine ⟨?_, rfl, rfl⟩
  intro env h
  simp [resourceWebACLDelete, h]

/-- Witness for C4: the WAFv2 delete at a concrete environment whose
`DeleteWebACL` reports a nonexistent item succeeds without diagnostics. -/
theorem c4_witness :
    (resourceWebACLDelete
        ⟨"t", .error .wafNonexistentItemException, [], .ok none,
          .ok (), []⟩).diags = none :=
  c4_delete_notFound_idempotent.1 _ rfl

/-- Claim C5: each read callback, on a not-found from its finder, clears the
stored ID and succeeds when the resource is not newly created, and surfaces
the error when it is newly created. -/
theorem c5_read_notFound_handling :
    (∀ (id : String) (cfgRules : List Rule) (resp : GetResp) (e : ProvErr),
        findWebACLByThreePartKey resp = .error e → e.isTfNotFound = true →
        resourceWebACLRead false id cfgRules resp = ⟨"", none, none, none⟩
        ∧ (resourceWebACLRead true id cfgRules resp).diags =
            some (.readingWebACL e))
    ∧ (∀ (id : String) (e : ProvErr), e.isTfNotFound = true →
        resourceCertificateRead false id (.error e) = ⟨"", none⟩
        ∧ (resourceCertificateRead true id (.error e)).diags =
            some (.readingCertificate e))
    ∧ (∀ (id : String) (e : ProvErr) (dec : Except String String),
        e.isTfNotFound = true →
        resourceUploadRead false id (.error e) dec = ⟨"", none⟩
        ∧ (resourceUploadRead true id (.error e) dec).diags =
            some (.readingUpload e)) := by
  refine ⟨?_, ?_, ?_⟩
  · intro id cfgRules resp e h hnf
    constructor <;> simp [resourceWebACLRead, h, hnf]
  · intro id e hnf
    constructor <;> simp [resourceCertificateRead, hnf]
  · intro id e dec hnf
    constructor <;> simp [resourceUploadRead, hnf]

/-- Witness for C5: a concrete not-found read of a non-new certificate
removes it from state with no diagnostics. -/
theorem c5_witness :
    resourceCertificateRead false "cert-1234"
        (.error (.notFoundError none)) = ⟨"", none⟩ :=
  (c5_read_notFound_handling.2.1 "cert-1234" (.notFoundError none) rfl).1

/-- Claim C1: when the `UpdateWebACL` mutation fails with an optimistic-lock
conflict, the provider reads the remote lock token; when it differs from the
last-known token the mutation is retried exactly once, with the refreshed
token (the phase trace is exactly [held token, refreshed token]), and if the
retried mutation also fails with an optimistic-lock conflict the callback
returns a conflict error. -/
theorem c1_update_conflict_single_retry :
    ∀ (env : WebACLUpdateEnv) (rules : List Rule) (output : GetWebACLOutput),
      env.hasChanges = true →
      webACLUpdateSentRules env.cfgRules env.shieldGet = .ok rules →
      retryWhenTransient isUnavailableEntity env.upd1 env.upd1Rest =
        .error .wafOptimisticLockException →
      findWebACLByThreePartKey env.refreshGet = .ok output →
      awsToString output.lockToken ≠ env.lockToken →
      (resourceWebACLUpdate env).phases.map MutationPhase.lockToken =
          [env.lockToken, awsToString output.lockToken]
      ∧ (retryWhenTransient isAssociatedOrUnavailable env.upd2 env.upd2Rest =
            .error .wafOptimisticLockException →
          (resourceWebACLUpdate env).result =
            .done (some (.updateConflict .wafOptimisticLockException))) := by
  intro env rules output hch hrules h1 hget hne
  by_cases h2 : retryWhenTransient isAssociatedOrUnavailable env.upd2
      env.upd2Rest = .error .wafOptimisticLockException <;>
    simp [resourceWebACLUpdate, hch, hrules, h1,
      retryResourceWebACLUpdateOptmisticLockFailure, hget, hne, h2]

/-- Witness for C1 at a concrete environment: conflict, refreshed token
`t2` differs from held `t1`, retried mutation conflicts again. -/
theorem c1_witness :
    (resourceWebACLUpdate
        ⟨true, [], "t1", .ok (some ⟨some ⟨[]⟩, some "t0"⟩),
          .error .wafOptimisticLockException, [],
          .ok (some ⟨some ⟨[]⟩, some "t2"⟩),
          .error .wafOptimisticLockException, []⟩).phases.map
      MutationPhase.lockToken = ["t1", "t2"]
    ∧ (resourceWebACLUpdate
        ⟨true, [], "t1", .ok (some ⟨some ⟨[]⟩, some "t0"⟩),
          .error .wafOptimisticLockException, [],
          .ok (some ⟨some ⟨[]⟩, some "t2"⟩),
          .error .wafOptimisticLockException, []⟩).result =
      .done (some (.updateConflict .wafOptimisticLockException)) := by
  have h := c1_update_conflict_single_retry
    ⟨true, [], "t1", .ok (some ⟨some ⟨[]⟩, some "t0"⟩),
      .error .wafOptimisticLockException, [],
      .ok (some ⟨some ⟨[]⟩, some "t2"⟩),
      .error .wafOptimisticLockException, []⟩
    [] ⟨some ⟨[]⟩, some "t2"⟩ rfl rfl rfl rfl (by decide)
  exact ⟨h.1, h.2 rfl⟩

/-- Claim C2: the WAFv2 Web ACL delete performs at most two `DeleteWebACL`
mutation phases in any run (so an optimistic-lock conflict triggers at most
one re-attempt); when the initial mutation conflicts and the refreshed token
differs, exactly one retried phase runs with the fresh token, and a second
optimistic-lock conflict is surfaced as an error with no further
conflict-triggered retry. -/
theorem c2_delete_conflict_single_retry :
    (∀ env : WebACLDeleteEnv, (resourceWebACLDelete env).phases.length ≤ 2)
    ∧ (∀ (env : WebACLDeleteEnv) (output : GetWebACLOutput),
        retryWhenTransient isAssociatedOrUnavailable env.del1 env.del1Rest =
          .error .wafOptimisticLockException →
        findWebACLByThreePartKey env.refreshGet = .ok output →
        awsToString output.lockToken ≠ env.lockToken →
        (resourceWebACLDelete env).phases.map MutationPhase.lockToken =
            [env.lockToken, awsToString output.lockToken]
        ∧ (retryWhenTransient isAssociatedOrUnavailable env.del2 env.del2Rest =
              .error .wafOptimisticLockException →
            (resourceWebACLDelete env).diags =
              some (.deleteConflict .wafOptimisticLockException))) := by
  constructor
  · intro env
    unfold resourceWebACLDelete
    by_cases h1 : retryWhenTransient isAssociatedOrUnavailable env.del1
        env.del1Rest = .error .wafOptimisticLockException
    · simp only [h1, if_true]
      have hb := retryDeleteHelper_phases_le_one env.lockToken env.refreshGet
        env.del2 env.del2Rest
      simp only [List.length_cons]
      omega
    · simp only [h1, if_false]
      split
      · simp
      · split <;> simp
  · intro env output h1 hget hne
    by_cases h2 : retryWhenTransient isAssociatedOrUnavailable env.del2
        env.del2Rest = .error .wafOptimisticLockException <;>
      simp [resourceWebACLDelete, h1,
        retryResourceWebACLDeleteOptmisticLockFailure, hget, hne, h2]

/-- Witness for C2 at a concrete environment: conflict, refreshed token
differs, retried mutation conflicts again and the conflict is surfaced. -/
theorem c2_witness :
    (resourceWebACLDelete
        ⟨"t1", .error .wafOptimisticLockException, [],
          .ok (some ⟨some ⟨[]⟩, some "t2"⟩),
          .error .wafOptimisticLockException, []⟩).phases.map
      MutationPhase.lockToken = ["t1", "t2"]
    ∧ (resourceWebACLDelete
        ⟨"t1", .error .wafOptimisticLockException, [],
          .ok (some ⟨some ⟨[]⟩, some "t2"⟩),
          .error .wafOptimisticLockException, []⟩).diags =
      some (.deleteConflict .wafOptimisticLockException) := by
  have h := c2_delete_conflict_single_retry.2
    ⟨"t1", .error .wafOptimisticLockException, [],
      .ok (some ⟨some ⟨[]⟩, some "t2"⟩),
      .error .wafOptimisticLockException, []⟩
    ⟨some ⟨[]⟩, some "t2"⟩ rfl rfl (by decide)
  exact ⟨h.1, h.2 rfl⟩

/-- Claim C8: after an optimistic-lock conflict on update or delete, if the
freshly fetched lock token equals the token the operation already held, the
callback returns success and the failed mutation is not re-attempted (one
mutation phase only). -/
theorem c8_equal_token_drops_mutation :
    (∀ (env : WebACLUpdateEnv) (rules : List Rule) (output : GetWebACLOutput),
        env.hasChanges = true →
        webACLUpdateSentRules env.cfgRules env.shieldGet = .ok rules →
        retryWhenTransient isUnavailableEntity env.upd1 env.upd1Rest =
          .error .wafOptimisticLockException →
        findWebACLByThreePartKey env.refreshGet = .ok output →
        awsToString output.lockToken = env.lockToken →
        (resourceWebACLUpdate env).result = .done none
        ∧ (resourceWebACLUpdate env).phases.length = 1)
    ∧ (∀ (env : WebACLDeleteEnv) (output : GetWebACLOutput),
        retryWhenTransient isAssociatedOrUnavailable env.del1 env.del1Rest =
          .error .wafOptimisticLockException →
        findWebACLByThreePartKey env.refreshGet = .ok output →
        awsToString output.lockToken = env.lockToken →
        (resourceWebACLDelete env).diags = none
        ∧ (resourceWebACLDelete env).phases.length = 1) := by
  constructor
  · intro env rules output hch hrules h1 hget heq
    constructor <;>
      simp [resourceWebACLUpdate, hch, hrules, h1,
        retryResourceWebACLUpdateOptmisticLockFailure, hget, heq]
  · intro env output h1 hget heq
    constructor <;>
      simp [resourceWebACLDelete, h1,
        retryResourceWebACLDeleteOptmisticLockFailure, hget, heq]

/-- Witness for C8 at concrete environments where the refreshed token equals
the held token `t1` on both update and delete. -/
theorem c8_witness :
    (resourceWebACLUpdate
        ⟨true, [], "t1", .ok (some ⟨some ⟨[]⟩, some "t0"⟩),
          .error .wafOptimisticLockException, [],
          .ok (some ⟨some ⟨[]⟩, some "t1"⟩), .ok (), []⟩).result = .done none
    ∧ (resourceWebACLDelete
        ⟨"t1", .error .wafOptimisticLockException, [],
          .ok (some ⟨some ⟨[]⟩, some "t1"⟩), .ok (), []⟩).diags = none :=
  ⟨(c8_equal_token_drops_mutation.1
      ⟨true, [], "t1", .ok (some ⟨some ⟨[]⟩, some "t0"⟩),
        .error .wafOptimisticLockException, [],
        .ok (some ⟨some ⟨[]⟩, some "t1"⟩), .ok (), []⟩
      [] ⟨some ⟨[]⟩, some "t1"⟩ rfl rfl rfl rfl rfl).1,
    (c8_equal_token_drops_mutation.2
      ⟨"t1", .error .wafOptimisticLockException, [],
        .ok (some ⟨some ⟨[]⟩, some "t1"⟩), .ok (), []⟩
      ⟨some ⟨[]⟩, some "t1"⟩ rfl rfl rfl).1⟩

/-- Counterexample to claim C3 as stated.  First conjunct: the WAFv2 create
hits a `WAFUnavailableEntityException` — an API error that is neither
not-found nor an optimistic-lock conflict — yet the callback retries it and,
the retry succeeding, surfaces no diagnostic at all.  Second conjunct: on the
delete conflict-retry path, the retried `DeleteWebACL` fails with an
AccessDenied error — again neither not-found nor conflict — and the callback
swallows it, returning success. -/
theorem c3_counterexample :
    (resourceWebACLCreate (.error .wafUnavailableEntityException)
        [.ok ⟨"id1"⟩] = .toRead "id1"
      ∧ AwsErr.isNotFoundClass .wafUnavailableEntityException = false
      ∧ AwsErr.isConflictClass .wafUnavailableEntityException = false)
    ∧ ((resourceWebACLDelete
          ⟨"t1", .error .wafOptimisticLockException, [],
            .ok (some ⟨some ⟨[]⟩, some "t2"⟩),
            .error (.otherErr "AccessDenied"), []⟩).diags = none
      ∧ AwsErr.isNotFoundClass (.otherErr "AccessDenied") = false
      ∧ AwsErr.isConflictClass (.otherErr "AccessDenied") = false) := by
  exact ⟨⟨rfl, rfl, rfl⟩, ⟨by decide, rfl, rfl⟩⟩

/-- Claim C3 as amended: each create callback surfaces the final error of
its create call verbatim (the WAFv2 create wrapper retrying only
`WAFUnavailableEntityException` first); but on the update/delete
optimistic-lock retry path, after a successful refresh, only a second
optimistic-lock conflict is surfaced — any non-conflict error of the
conflict-retried mutation yields success. -/
theorem c3_amended_error_surfacing :
    (∀ (att1 : Except AwsErr CreateWebACLOutput)
        (attRest : List (Except AwsErr CreateWebACLOutput)) (e : AwsErr),
        retryWhenTransient isUnavailableEntity att1 attRest = .error e →
        resourceWebACLCreate att1 attRest = .done (some (.creatingWebACL e)))
    ∧ (∀ e : AwsErr,
        resourceCertificateCreate (.error e) =
          .done (some (.importingCertificate e)))
    ∧ (∀ e : AwsErr,
        resourceUploadCreate (.error e) = .done (some (.creatingUpload e)))
    ∧ (∀ (e : AwsErr) (rest : List (Except AwsErr CreateWebACLOutput)),
        isUnavailableEntity e = false →
        retryWhenTransient isUnavailableEntity (.error e) rest = .error e)
    ∧ (∀ (lockToken : String) (refreshGet : GetResp)
          (output : GetWebACLOutput) (m : Except AwsErr Unit)
          (mRest : List (Except AwsErr Unit)),
        findWebACLByThreePartKey refreshGet = .ok output →
        retryWhenTransient isAssociatedOrUnavailable m mRest ≠
          .error .wafOptimisticLockException →
        (retryResourceWebACLUpdateOptmisticLockFailure lockToken refreshGet m
          mRest).1 = none
        ∧ (retryResourceWebACLDeleteOptmisticLockFailure lockToken refreshGet
          m mRest).1 = none) := by
  refine ⟨?_, fun e => rfl, fun e => rfl, ?_, ?_⟩
  · intro att1 attRest e h
    simp [resourceWebACLCreate, h]
  · intro e rest hne
    cases rest <;> simp [retryWhenTransient, hne]
  · intro lockToken refreshGet output m mRest hget h2
    constructor
    · unfold retryResourceWebACLUpdateOptmisticLockFailure
      rw [hget]
      dsimp only
      by_cases hne : awsToString output.lockToken ≠ lockToken
      · rw [if_pos hne, if_neg h2]
      · rw [if_neg hne]
    · unfold retryResourceWebACLDeleteOptmisticLockFailure
      rw [hget]
      dsimp only
      by_cases hne : awsToString output.lockToken ≠ lockToken
      · rw [if_pos hne, if_neg h2]
      · rw [if_neg hne]

/-- Witness for the amended C3 at concrete inputs: a throttling error on the
WAFv2 create is surfaced verbatim, and an AccessDenied error on the
conflict-retried update mutation is not surfaced. -/
theorem c3_amended_witness :
    resourceWebACLCreate (.error (.otherErr "Throttling")) [] =
        .done (some (.creatingWebACL (.otherErr "Throttling")))
    ∧ (retryResourceWebACLUpdateOptmisticLockFailure "t1"
        (.ok (some ⟨some ⟨[]⟩, some "t2"⟩))
        (.error (.otherErr "AccessDenied")) []).1 = none :=
  ⟨c3_amended_error_surfacing.1 _ [] (.otherErr "Throttling") rfl,
    (c3_amended_error_surfacing.2.2.2.2 "t1"
      (.ok (some ⟨some ⟨[]⟩, some "t2"⟩)) ⟨some ⟨[]⟩, some "t2"⟩
      (.error (.otherErr "AccessDenied")) [] rfl (by decide)).1⟩

/-- Counterexample to claim C9 as stated: the remote rules hold two distinct
rules whose names both match the Shield mitigation pattern and appear in no
configured rule (the configuration is empty), yet `filterWebACLRules` keeps
the second one — only rules named like the FIRST found Shield rule are
filtered. -/
theorem c9_counterexample :
    matchShieldName
        "ShieldMitigationRuleGroup_123456789012_01234567-89ab-cdef-0123-456789abcdef_B"
      = true
    ∧ filterWebACLRules
        [⟨some "ShieldMitigationRuleGroup_123456789012_01234567-89ab-cdef-0123-456789abcdef_A", 0⟩,
          ⟨some "ShieldMitigationRuleGroup_123456789012_01234567-89ab-cdef-0123-456789abcdef_B", 0⟩]
        []
      = [⟨some "ShieldMitigationRuleGroup_123456789012_01234567-89ab-cdef-0123-456789abcdef_B", 0⟩] := by
  exact ⟨rfl, by decide⟩

/-- Claim C9 as amended: on update, when the configured rules contain no
Shield-pattern rule, all Shield-pattern rules of the remote web ACL are
appended to the rules sent; on read, if no remote rule matches the pattern
the rules pass through unchanged, the filtered rules are a sublist of the
remote rules (kept in order), and a remote rule is kept exactly when its
name, if equal to the name of the FIRST remote Shield-pattern rule, also
occurs among the configured rules (rules named differently from the first
Shield rule are always kept, even if they match the pattern). -/
theorem c9_amended_shield_rule_preservation :
    (∀ (cfgRules : List Rule) (shieldGet : GetResp)
        (output : GetWebACLOutput),
        findShieldRule cfgRules = [] →
        findWebACLByThreePartKey shieldGet = .ok output →
        webACLUpdateSentRules cfgRules shieldGet =
          .ok (cfgRules ++ findShieldRule output.rulesOf))
    ∧ (∀ rules configRules : List Rule, findShieldRule rules = [] →
        filterWebACLRules rules configRules = rules)
    ∧ (∀ rules configRules : List Rule,
        (filterWebACLRules rules configRules).Sublist rules)
    ∧ (∀ (rules configRules : List Rule) (s0 r : Rule),
        (findShieldRule rules).head? = some s0 →
        r ∈ rules →
        (r ∈ filterWebACLRules rules configRules ↔
          (awsToString r.name = awsToString s0.name →
            ∃ cr ∈ configRules,
              awsToString cr.name = awsToString r.name))) := by
  refine ⟨?_, ?_, ?_, ?_⟩
  · intro cfgRules shieldGet output hcfg hget
    simp [webACLUpdateSentRules, hcfg, hget]
  · intro rules configRules h
    simp [filterWebACLRules, h]
  · intro rules configRules
    unfold filterWebACLRules
    rcases findShieldRule rules with _ | ⟨s0, t⟩
    · exact List.Sublist.refl rules
    · exact List.filter_sublist rules
  · intro rules configRules s0 r hhead hr
    rcases hsr : findShieldRule rules with _ | ⟨s0', t⟩
    · rw [hsr] at hhead
      exact absurd hhead (by simp)
    · rw [hsr] at hhead
      have hs0 : s0' = s0 := by simpa using hhead
      subst hs0
      unfold filterWebACLRules
      rw [hsr]
      by_cases hname : awsToString r.name = awsToString s0'.name <;>
        simp [List.mem_filter, hr, hname, List.any_eq_true]

/-- Witness for the amended C9 at concrete inputs: with no configured Shield
rule, the remote Shield rule is appended to the sent rules, and on read a
remote Shield rule named like the first one and absent from the
configuration is dropped while an ordinary rule is kept. -/
theorem c9_amended_witness :
    webACLUpdateSentRules [⟨some "user-rule", 1⟩]
        (.ok (some ⟨some ⟨[⟨some "ShieldMitigationRuleGroup_123456789012_01234567-89ab-cdef-0123-456789abcdef_X", 9⟩]⟩, some "t"⟩)) =
      .ok [⟨some "user-rule", 1⟩,
        ⟨some "ShieldMitigationRuleGroup_123456789012_01234567-89ab-cdef-0123-456789abcdef_X", 9⟩]
    ∧ (⟨some "user-rule", 1⟩ : Rule) ∈ filterWebACLRules
        [⟨some "ShieldMitigationRuleGroup_123456789012_01234567-89ab-cdef-0123-456789abcdef_X", 9⟩,
          ⟨some "user-rule", 1⟩]
        [⟨some "user-rule", 1⟩] := by
  constructor
  · have h := c9_amended_shield_rule_preservation.1 [⟨some "user-rule", 1⟩]
      (.ok (some ⟨some ⟨[⟨some "ShieldMitigationRuleGroup_123456789012_01234567-89ab-cdef-0123-456789abcdef_X", 9⟩]⟩, some "t"⟩))
      ⟨some ⟨[⟨some "ShieldMitigationRuleGroup_123456789012_01234567-89ab-cdef-0123-456789abcdef_X", 9⟩]⟩, some "t"⟩
      (by decide) rfl
    rw [h]
    decide
  · exact (c9_amended_shield_rule_preservation.2.2.2
      [⟨some "ShieldMitigationRuleGroup_123456789012_01234567-89ab-cdef-0123-456789abcdef_X", 9⟩,
        ⟨some "user-rule", 1⟩]
      [⟨some "user-rule", 1⟩]
      ⟨some "ShieldMitigationRuleGroup_123456789012_01234567-89ab-cdef-0123-456789abcdef_X", 9⟩
      ⟨some "user-rule", 1⟩ (by decide) (by decide)).mpr (by decide)

end TfAws
